import Mathlib

/-!
Shallow embedding of `src/validate.js`: a declarative field-validation
module.  JavaScript strings, `null` and `undefined` are modelled by the
inductive `JSVal`; JavaScript numbers by `JSNumber` (exact rationals plus
`NaN` and the infinities — the claims only involve small decimal literals,
where IEEE doubles and rationals agree).  Each validator of the registry
(`validator.email`, `validator.required`, `validator.string`,
`validator.creditCard`, `validator.cvv`, `validator.positive`) is translated
from the source; the anchored regular expressions are translated into
decidable string predicates.  The engine (`validateField`, `validate`) is
translated with the DOM abstracted away: a `FormField` carries the current
value, the `data-validate` attribute and the `placeholder` attribute, and
`validate` receives the resolved field list.  A JavaScript `TypeError`
(reading `.length` of `undefined` when no rule list resolves) is modelled
by `Except JSError`.
-/

/-- JavaScript values that reach the validators: a string, `null`, or
`undefined`. -/
inductive JSVal where
  | str (s : String)
  | null
  | undef
deriving DecidableEq, Repr

/-- JavaScript `ToString` on the values of `JSVal`, as used when a value is
passed to `RegExp.prototype.test`. -/
def jsToString : JSVal → String
  | .str s => s
  | .null => "null"
  | .undef => "undefined"

/-- Truthiness of a `JSVal`: the empty string, `null` and `undefined` are
falsy, every other string is truthy. -/
def jsFalsy : JSVal → Bool
  | .str s => s = ""
  | .null => true
  | .undef => true

/-- JavaScript loose equality `v == s` between a `JSVal` and a string
literal: strings compare by content, `null` and `undefined` are never
loosely equal to a string. -/
def looseEqStr (v : JSVal) (s : String) : Bool :=
  match v with
  | .str t => t = s
  | .null => false
  | .undef => false

/-- Whether a `JSVal` is strictly (`===`) the value `undefined`. -/
def strictEqUndef : JSVal → Bool
  | .undef => true
  | _ => false

/-- Whether a `JSVal` is strictly (`===`) the value `null`. -/
def strictEqNull : JSVal → Bool
  | .null => true
  | _ => false

/-- JavaScript numbers as needed by the `positive` validator: `NaN`, the two
infinities, or a finite value modelled as an exact rational. -/
inductive JSNumber where
  | nan
  | posInf
  | negInf
  | num (q : Rat)
deriving DecidableEq, Repr

/-- Whether a `JSNumber` is `NaN` (the JavaScript `isNaN` test on an already
coerced number). -/
def JSNumber.isNaN : JSNumber → Bool
  | .nan => true
  | _ => false

/-- The JavaScript comparison `v < 0` on a `JSNumber`; `NaN < 0` is false,
and a rational is below zero exactly when its (normalized) numerator is. -/
def JSNumber.ltZero : JSNumber → Bool
  | .nan => false
  | .posInf => false
  | .negInf => true
  | .num q => decide (q.num < 0)

/-- Characters the ECMAScript `StringToNumber` conversion trims: WhiteSpace
and LineTerminator code points. -/
def jsWhitespaceChar (c : Char) : Bool :=
  c = ' ' || c = '\t' || c = '\n' || c = '\x0b' || c = '\x0c' || c = '\r' ||
  c = '\xa0' || c = '\u1680' || (0x2000 ≤ c.toNat && c.toNat ≤ 0x200A) ||
  c = '\u2028' || c = '\u2029' || c = '\u202f' || c = '\u205f' ||
  c = '\u3000' || c = '\ufeff'

/-- Decimal digit test, the `[0-9]` (also `\d`) character class. -/
def isDigitChar (c : Char) : Bool :=
  '0' ≤ c && c ≤ '9'

/-- Numeric value of a list of decimal digit characters, most significant
first. -/
def digitsToNat (cs : List Char) : Nat :=
  cs.foldl (fun a c => a * 10 + (c.toNat - 48)) 0

/-- Value of a hexadecimal digit character, or `none`. -/
def hexVal (c : Char) : Option Nat :=
  if '0' ≤ c && c ≤ '9' then some (c.toNat - 48)
  else if 'a' ≤ c && c ≤ 'f' then some (c.toNat - 87)
  else if 'A' ≤ c && c ≤ 'F' then some (c.toNat - 55)
  else none

/-- Value of an octal digit character, or `none`. -/
def octVal (c : Char) : Option Nat :=
  if '0' ≤ c && c ≤ '7' then some (c.toNat - 48) else none

/-- Value of a binary digit character, or `none`. -/
def binVal (c : Char) : Option Nat :=
  if c = '0' || c = '1' then some (c.toNat - 48) else none

/-- Numeric value of a nonempty digit sequence in the given radix, or `none`
when the sequence is empty or holds a foreign character. -/
def radixNat (f : Char → Option Nat) (radix : Nat) (cs : List Char) : Option Nat :=
  if cs ≠ [] && cs.all (fun c => (f c).isSome) then
    some (cs.foldl (fun a c => a * radix + (f c).getD 0) 0)
  else none

/-- Trim of the ECMAScript whitespace from both ends of a character list. -/
def trimJS (cs : List Char) : List Char :=
  ((cs.dropWhile jsWhitespaceChar).reverse.dropWhile jsWhitespaceChar).reverse

/-- Value of a decimal literal with integer digits, fraction digits and a
signed power-of-ten exponent:
`(int + frac / 10 ^ |frac|) * 10 ^ e`, built with `mkRat` so that it
evaluates by plain integer arithmetic. -/
def decimalValue (intPart fracPart : List Char) (e : Int) : Rat :=
  let mantissa : Nat := digitsToNat intPart * 10 ^ fracPart.length + digitsToNat fracPart
  if 0 ≤ e then mkRat (Int.ofNat (mantissa * 10 ^ e.toNat)) (10 ^ fracPart.length)
  else mkRat (Int.ofNat mantissa) (10 ^ (fracPart.length + (-e).toNat))

/-- Exponent part of a `StrDecimalLiteral` (`[eE][+-]?digits`), required to
consume the whole remaining input; `some 0` on empty input. -/
def parseExponentPart : List Char → Option Int
  | [] => some 0
  | c :: rest =>
    if c = 'e' || c = 'E' then
      match rest with
      | '+' :: ds =>
        if ds ≠ [] && ds.all isDigitChar then some (digitsToNat ds : Int) else none
      | '-' :: ds =>
        if ds ≠ [] && ds.all isDigitChar then some (-(digitsToNat ds : Int)) else none
      | ds =>
        if ds ≠ [] && ds.all isDigitChar then some (digitsToNat ds : Int) else none
    else none

/-- Unsigned `StrUnsignedDecimalLiteral` without the `Infinity` production:
`digits ( . digits? )? exp?` or `. digits exp?`, consuming the whole input;
`none` when the input is not of that shape. -/
def parseUnsignedDecimal (cs : List Char) : Option Rat :=
  let intPart := cs.takeWhile isDigitChar
  let rest1 := cs.dropWhile isDigitChar
  match rest1 with
  | '.' :: rest2 =>
    let fracPart := rest2.takeWhile isDigitChar
    let rest3 := rest2.dropWhile isDigitChar
    if intPart = [] && fracPart = [] then none
    else
      match parseExponentPart rest3 with
      | some e => some (decimalValue intPart fracPart e)
      | none => none
  | rest2 =>
    if intPart = [] then none
    else
      match parseExponentPart rest2 with
      | some e => some (decimalValue intPart [] e)
      | none => none

/-- Signless body of a decimal literal: `Infinity` or an unsigned decimal;
`NaN` otherwise.  The flag records a leading minus sign. -/
def parseUnsignedTop (cs : List Char) (neg : Bool) : JSNumber :=
  if cs = "Infinity".data then (if neg then .negInf else .posInf)
  else
    match parseUnsignedDecimal cs with
    | some q => .num (if neg then Rat.neg q else q)
    | none => .nan

/-- Optional sign followed by the body of a `StrDecimalLiteral`. -/
def parseSignedDecimal (cs : List Char) : JSNumber :=
  match cs with
  | '+' :: rest => parseUnsignedTop rest false
  | '-' :: rest => parseUnsignedTop rest true
  | _ => parseUnsignedTop cs false

/-- ECMAScript `StringToNumber`: trim whitespace; empty means zero; `0x`,
`0o`, `0b` radix literals; otherwise a signed decimal literal or `NaN`. -/
def stringToNumber (s : String) : JSNumber :=
  match trimJS s.data with
  | [] => .num (mkRat 0 1)
  | '0' :: x :: rest =>
    if x = 'x' || x = 'X' then
      match radixNat hexVal 16 rest with
      | some n => .num (mkRat (Int.ofNat n) 1)
      | none => .nan
    else if x = 'o' || x = 'O' then
      match radixNat octVal 8 rest with
      | some n => .num (mkRat (Int.ofNat n) 1)
      | none => .nan
    else if x = 'b' || x = 'B' then
      match radixNat binVal 2 rest with
      | some n => .num (mkRat (Int.ofNat n) 1)
      | none => .nan
    else parseSignedDecimal ('0' :: x :: rest)
  | cs => parseSignedDecimal cs

/-- JavaScript unary plus (`ToNumber`) on a `JSVal`: strings parse, `null`
coerces to `0`, `undefined` to `NaN`. -/
def jsToNumber : JSVal → JSNumber
  | .str s => stringToNumber s
  | .null => .num (mkRat 0 1)
  | .undef => .nan

/-- Result record returned by every validator: `error` true means the value
failed, and `message` is the text handed to `displayError` (the `positive`
validator leaves it unset on success). -/
structure ValidationResult where
  error : Bool
  message : Option String
deriving DecidableEq, Repr

/-- Split of a character list at every occurrence of a separator character,
matching the semantics of the JavaScript `String.prototype.split` with a
one-character separator (always at least one piece; empty pieces kept). -/
def splitOnChar (sep : Char) : List Char → List (List Char)
  | [] => [[]]
  | c :: rest =>
    let ps := splitOnChar sep rest
    if c = sep then [] :: ps
    else
      match ps with
      | p :: tail => (c :: p) :: tail
      | [] => [[c]]

/-- Comma split of a string into the requested rule keys, the JavaScript
`s.split(",")`. -/
def csvSplit (s : String) : List String :=
  (splitOnChar ',' s.data).map (fun cs => String.mk cs)

/-- Character class of the JavaScript regex `.` (any character but a line
terminator). -/
def jsDotChar (c : Char) : Bool :=
  !(c = '\n' || c = '\r' || c = '\u2028' || c = '\u2029')

/-- Character class `[^<>()[\]\\.,;:\s@\"]` from the email regex: anything
but the listed punctuation, whitespace, `@` and the double quote. -/
def emailAtomChar (c : Char) : Bool :=
  !(c = '<' || c = '>' || c = '(' || c = ')' || c = '[' || c = ']' ||
    c = '\\' || c = '.' || c = ',' || c = ';' || c = ':' || c = '@' ||
    c = '\"' || jsWhitespaceChar c)

/-- Dotted-atom local part `atom+(\.atom+)*`: since the atom class excludes
the dot, this is exactly a dot-split into nonempty all-atom pieces. -/
def emailLocalDotted (cs : List Char) : Bool :=
  (splitOnChar '.' cs).all (fun p => p ≠ [] && p.all emailAtomChar)

/-- Quoted local part `\".+\"`: a double quote, one or more `.`-matchable
characters, a double quote. -/
def emailLocalQuoted (cs : List Char) : Bool :=
  match cs with
  | '\"' :: rest =>
    rest.length ≥ 2 && rest.getLast? = some '\"' && rest.dropLast.all jsDotChar
  | _ => false

/-- Bracketed IPv4 domain `\[[0-9]{1,3}(\.[0-9]{1,3}){3}\]`. -/
def emailDomainIPv4 (cs : List Char) : Bool :=
  match cs with
  | '[' :: rest =>
    rest.getLast? = some ']' &&
    (let inner := rest.dropLast
     let parts := splitOnChar '.' inner
     parts.length = 4 &&
       parts.all (fun p => 1 ≤ p.length && p.length ≤ 3 && p.all isDigitChar))
  | _ => false

/-- Character class `[a-zA-Z\-0-9]` of a host label. -/
def emailHostChar (c : Char) : Bool :=
  ('a' ≤ c && c ≤ 'z') || ('A' ≤ c && c ≤ 'Z') || isDigitChar c || c = '-'

/-- Alphabetic character, for the TLD class `[a-zA-Z]`. -/
def isAlphaChar (c : Char) : Bool :=
  ('a' ≤ c && c ≤ 'z') || ('A' ≤ c && c ≤ 'Z')

/-- Dotted hostname domain `([a-zA-Z\-0-9]+\.)+[a-zA-Z]{2,}`: at least one
label then a final all-alphabetic piece of length two or more. -/
def emailDomainHost (cs : List Char) : Bool :=
  match (splitOnChar '.' cs).reverse with
  | tld :: labels =>
    labels ≠ [] && tld.length ≥ 2 && tld.all isAlphaChar &&
      labels.all (fun p => p ≠ [] && p.all emailHostChar)
  | [] => false

/-- Every decomposition of a character list as `left ++ [@] ++ right`, the
splits a backtracking anchored regex tries for the `@` of the email
pattern. -/
def atSplits : List Char → List (List Char × List Char)
  | [] => []
  | c :: rest =>
    (if c = '@' then [(([] : List Char), rest)] else []) ++
      (atSplits rest).map (fun p => (c :: p.1, p.2))

/-- Anchored match of the email regex of the source: some `@` splits the
string into a dotted-atom or quoted local part and an IPv4 or hostname
domain. -/
def emailMatch (s : String) : Bool :=
  (atSplits s.data).any (fun p =>
    (emailLocalDotted p.1 || emailLocalQuoted p.1) &&
      (emailDomainIPv4 p.2 || emailDomainHost p.2))

/-- Anchored match of the credit-card regex
`4[0-9]{12}([0-9]{3})? | 5[1-5][0-9]{14} | 6(011|5[0-9][0-9])[0-9]{12} |
3[47][0-9]{13} | 3(0[0-5]|[68][0-9])[0-9]{11} | (2131|1800|35\d{3})\d{11}`,
alternative by alternative. -/
def ccMatch (s : String) : Bool :=
  let cs := s.data
  (match cs with
   | '4' :: rest => rest.all isDigitChar && (rest.length = 12 || rest.length = 15)
   | _ => false) ||
  (match cs with
   | '5' :: c :: rest =>
     ('1' ≤ c && c ≤ '5') && rest.all isDigitChar && rest.length = 14
   | _ => false) ||
  (match cs with
   | '6' :: a :: b :: c :: rest =>
     ((a = '0' && b = '1' && c = '1') ||
       (a = '5' && isDigitChar b && isDigitChar c)) &&
     rest.all isDigitChar && rest.length = 12
   | _ => false) ||
  (match cs with
   | '3' :: c :: rest =>
     (c = '4' || c = '7') && rest.all isDigitChar && rest.length = 13
   | _ => false) ||
  (match cs with
   | '3' :: a :: b :: rest =>
     ((a = '0' && '0' ≤ b && b ≤ '5') ||
       ((a = '6' || a = '8') && isDigitChar b)) &&
     rest.all isDigitChar && rest.length = 11
   | _ => false) ||
  (match cs with
   | '2' :: '1' :: '3' :: '1' :: rest => rest.all isDigitChar && rest.length = 11
   | '1' :: '8' :: '0' :: '0' :: rest => rest.all isDigitChar && rest.length = 11
   | '3' :: '5' :: a :: b :: c :: rest =>
     isDigitChar a && isDigitChar b && isDigitChar c &&
     rest.all isDigitChar && rest.length = 11
   | _ => false)

/-- Anchored match of the CVV regex `^\d{3,4}$`. -/
def cvvMatch (s : String) : Bool :=
  s.data.all isDigitChar && (s.length = 3 || s.length = 4)

/-- Unanchored match of `/\d/`: the string holds a decimal digit. -/
def containsDigit (s : String) : Bool :=
  s.data.any isDigitChar

namespace validator

/-- Translation of `validator.email`: fails when the value does not match
the email regex. -/
def email (value : JSVal) : ValidationResult :=
  { error := !emailMatch (jsToString value), message := some "Invalid email address" }

/-- Translation of `validator.required`:
`r = value != "" && value !== undefined && value !== null`, error on `!r`. -/
def required (value : JSVal) : ValidationResult :=
  let r := !looseEqStr value "" && !strictEqUndef value && !strictEqNull value
  { error := !r, message := some "Required" }

/-- Translation of `validator.string`: a falsy value fails with
"Empty value"; otherwise the value fails exactly when it holds a digit. -/
def string (value : JSVal) : ValidationResult :=
  if jsFalsy value then { error := true, message := some "Empty value" }
  else { error := containsDigit (jsToString value), message := some "Invalid value" }

/-- Translation of `validator.creditCard`: a falsy value fails with
"Empty value"; otherwise the issuer regex decides, except that the literal
value 4567456745674567 is forced valid when the regex said no. -/
def creditCard (value : JSVal) : ValidationResult :=
  if jsFalsy value then { error := true, message := some "Empty value" }
  else
    let result := ccMatch (jsToString value)
    let result :=
      if !result then
        (if looseEqStr value "4567456745674567" then true else result)
      else result
    { error := !result, message := some "Invalid credit card" }

/-- Translation of `validator.cvv`: a falsy value fails with "Empty value";
otherwise the value fails exactly when it is not three or four digits. -/
def cvv (value : JSVal) : ValidationResult :=
  if jsFalsy value then { error := true, message := some "Empty value" }
  else { error := !cvvMatch (jsToString value), message := some "Invalid CVV" }

/-- Translation of `validator.positive`: coerce with unary plus; error, with
message "Invalid value", exactly when the number is `NaN` or negative. -/
def positive (value : JSVal) : ValidationResult :=
  let v := jsToNumber value
  if v.isNaN || v.ltZero then { error := true, message := some "Invalid value" }
  else { error := false, message := none }

end validator

/-- Property lookup `service.validator[key]` on the registry object: the six
declared validators by name, `none` for any other key. -/
def lookupValidator : String → Option (JSVal → ValidationResult)
  | "email" => some validator.email
  | "required" => some validator.required
  | "string" => some validator.string
  | "creditCard" => some validator.creditCard
  | "cvv" => some validator.cvv
  | "positive" => some validator.positive
  | _ => none

/-- Runtime error raised by the engine: the `TypeError` of reading
`validations.length` when no rule list resolved. -/
inductive JSError where
  | typeError
deriving DecidableEq, Repr

/-- One field as the engine sees it: its current value (`el.val()`), its
`data-validate` attribute (`none` when absent) and its `placeholder`
attribute (`none` when absent).  The DOM element itself is abstracted
away. -/
structure FormField where
  value : String
  dataValidate : Option String
  placeholder : Option String
deriving DecidableEq, Repr

/-- JavaScript truthiness filter on an optional string: `none` and the empty
string are falsy. -/
def truthyOptStr : Option String → Option String
  | some s => if s = "" then none else some s
  | none => none

/-- Rule-list resolution of `validateField`: `opt_validations.split(",")`
when that argument is truthy, else `el.data("validate").split(",")` when the
attribute is truthy, else `none` (the variable stays `undefined`). -/
def resolveValidations (f : FormField) (optValidations : Option String) : Option (List String) :=
  match truthyOptStr optValidations with
  | some s => some (csvSplit s)
  | none =>
    match truthyOptStr f.dataValidate with
    | some s => some (csvSplit s)
    | none => none

/-- Placeholder suppression: when the value loosely equals the placeholder
attribute the effective value is the empty string (an absent attribute is
`undefined`, never loosely equal to a string value). -/
def effectiveValue (f : FormField) : String :=
  match f.placeholder with
  | some p => if f.value = p then "" else f.value
  | none => f.value

/-- Rule loop of `validateField` over the resolved keys: keys absent from
the registry are skipped; the first failing registered rule stops the loop,
yielding `passed = false` and the message handed to `displayError`; when no
registered rule fails the loop ends with `passed = true` and no display. -/
def runValidations (value : JSVal) : List String → Bool × Option String
  | [] => (true, none)
  | r :: rest =>
    match lookupValidator r with
    | none => runValidations value rest
    | some vf =>
      let result := vf value
      if result.error then (false, result.message)
      else runValidations value rest

/-- Translation of `validateField`: resolve the rule list, apply placeholder
suppression, then run the rule loop; when no rule list resolved the `for`
loop's `validations.length` read throws a `TypeError`.  The returned pair is
the boolean `passed` and the message displayed by `displayError`, if any. -/
def validateField (f : FormField) (optValidations : Option String) :
    Except JSError (Bool × Option String) :=
  match resolveValidations f optValidations with
  | none => .error .typeError
  | some vs => .ok (runValidations (JSVal.str (effectiveValue f)) vs)

/-- Boolean a successful `validateField` call returns for a field with no
explicit rules (`false` also for a throwing call, which never returns). -/
def fieldPassed (f : FormField) : Bool :=
  match validateField f none with
  | .ok r => r.1
  | .error _ => false

/-- Field loop of `validate` (`$(sel).each(...)`) with its `passed`
accumulator: every field is visited in order; a thrown `TypeError`
propagates and aborts the loop. -/
def validateFields : List FormField → Bool → Except JSError Bool
  | [], passed => .ok passed
  | f :: rest, passed =>
    match validateField f none with
    | .error e => .error e
    | .ok r => validateFields rest (if r.1 then passed else false)

/-- Translation of `validate` over the resolved field set (the DOM query
`$("[data-validate]:visible")`, possibly scoped, is abstracted to the given
list; `removeOldErrors` only clears displayed markers and does not affect
the returned boolean). -/
def validate (fields : List FormField) : Except JSError Bool :=
  validateFields fields true

theorem runValidations_skip_unknown (value : JSVal) (r : String) (rest : List String)
    (h : lookupValidator r = none) :
    runValidations value (r :: rest) = runValidations value rest := by
  simp only [runValidations, h]

theorem runValidations_all_unknown_pass (value : JSVal) :
    ∀ vs : List String, (∀ r ∈ vs, lookupValidator r = none) →
      runValidations value vs = (true, none) := by
  intro vs
  induction vs with
  | nil => intro _; rfl
  | cons r rest ih =>
    intro h
    rw [runValidations_skip_unknown value r rest (h r (by simp))]
    exact ih (fun x hx => h x (by simp [hx]))

theorem runValidations_first_fail (value : JSVal) (post : List String) (r : String)
    (vf : JSVal → ValidationResult) (hreg : lookupValidator r = some vf)
    (hfail : (vf value).error = true) :
    ∀ pre : List String,
      (∀ p ∈ pre, ∀ vg, lookupValidator p = some vg → (vg value).error = false) →
      runValidations value (pre ++ r :: post) = (false, (vf value).message) := by
  intro pre
  induction pre with
  | nil =>
    intro _
    rw [List.nil_append]
    simp only [runValidations, hreg, hfail]
    simp
  | cons p rest ih =>
    intro h
    rw [List.cons_append]
    rcases hl : lookupValidator p with _ | vg
    · rw [runValidations_skip_unknown value p _ hl]
      exact ih (fun x hx => h x (by simp [hx]))
    · have hpass : (vg value).error = false := h p (by simp) vg hl
      simp only [runValidations, hl, hpass]
      simp only [Bool.false_eq_true, if_false]
      exact ih (fun x hx => h x (by simp [hx]))

theorem validateFields_ok_of_resolved :
    ∀ (fields : List FormField) (passed : Bool),
      (∀ f ∈ fields, (resolveValidations f none).isSome = true) →
      validateFields fields passed = .ok (passed && fields.all fieldPassed) := by
  intro fields
  induction fields with
  | nil => intro passed _; simp [validateFields]
  | cons f rest ih =>
    intro passed h
    have hf : (resolveValidations f none).isSome = true := h f (by simp)
    rcases hres : resolveValidations f none with _ | vs
    · rw [hres] at hf; simp at hf
    · have hvf : validateField f none =
          .ok (runValidations (JSVal.str (effectiveValue f)) vs) := by
        simp [validateField, hres]
      have hfp : fieldPassed f = (runValidations (JSVal.str (effectiveValue f)) vs).1 := by
        simp [fieldPassed, hvf]
      simp only [validateFields, hvf]
      rw [ih _ (fun x hx => h x (by simp [hx]))]
      congr 1
      cases hb : (runValidations (JSVal.str (effectiveValue f)) vs).1 <;>
        cases passed <;> simp [List.all_cons, hfp, hb]

theorem all_eq_false_iff_exists {α : Type} (p : α → Bool) (l : List α) :
    l.all p = false ↔ ∃ x ∈ l, p x = false := by
  induction l with
  | nil => simp
  | cons a t ih =>
    cases hpa : p a
    · simp [List.all_cons, hpa]
    · simp [List.all_cons, hpa, ih]

theorem dropWhile_eq_nil_of_all (p : Char → Bool) :
    ∀ cs : List Char, (∀ c ∈ cs, p c = true) → cs.dropWhile p = [] := by
  intro cs
  induction cs with
  | nil => intro _; rfl
  | cons a t ih =>
    intro h
    rw [List.dropWhile_cons, if_pos (h a (by simp))]
    exact ih (fun x hx => h x (by simp [hx]))

theorem trimJS_eq_nil_of_all (cs : List Char)
    (h : ∀ c ∈ cs, jsWhitespaceChar c = true) : trimJS cs = [] := by
  rw [trimJS, dropWhile_eq_nil_of_all _ cs h]
  rfl

theorem stringToNumber_whitespace_only (s : String)
    (h : ∀ c ∈ s.data, jsWhitespaceChar c = true) :
    stringToNumber s = .num (mkRat 0 1) := by
  simp only [stringToNumber]
  rw [trimJS_eq_nil_of_all s.data h]

/-- C1: `validateField` walks the resolved rule keys in declared order; at
the first key that is in the registry and whose validator reports an error
on the effective value, it returns `false` with that validator's message
handed to `displayError`, and no later rule influences the outcome. -/
theorem C1_rule_order_first_failure_short_circuit
    (f : FormField) (opt : Option String) (pre post : List String) (r : String)
    (vf : JSVal → ValidationResult)
    (hres : resolveValidations f opt = some (pre ++ r :: post))
    (hreg : lookupValidator r = some vf)
    (hfail : (vf (JSVal.str (effectiveValue f))).error = true)
    (hpre : ∀ p ∈ pre, ∀ vg, lookupValidator p = some vg →
      (vg (JSVal.str (effectiveValue f))).error = false) :
    validateField f opt =
      .ok (false, (vf (JSVal.str (effectiveValue f))).message) := by
  simp only [validateField, hres]
  rw [runValidations_first_fail _ post r vf hreg hfail pre hpre]

/-- C1 witness: with rules "required,email" and value "", the reported
message is the one of `required`, not of `email`. -/
theorem C1_rule_order_first_failure_short_circuit_witness :
    validateField ⟨"", some "required,email", none⟩ none =
      .ok (false, some "Required") := by
  have h := C1_rule_order_first_failure_short_circuit
    ⟨"", some "required,email", none⟩ none [] ["email"] "required"
    validator.required (by decide) rfl (by decide) (by simp)
  exact h

/-- C2 counterexample: with `explicitRules` omitted and no rule-list
declaration on the field, `validateField` does not return `true`: the rule
list stays undefined and reading its length throws a `TypeError`. -/
theorem C2_missing_rules_counterexample :
    validateField ⟨"x", none, none⟩ none = .error JSError.typeError := rfl

/-- C2 (amended): whenever neither the `explicitRules` argument nor the
field's `data-validate` attribute yields a truthy rule-list string,
`validateField` throws a `TypeError` instead of returning. -/
theorem C2_unresolved_rule_list_throws (f : FormField) (opt : Option String)
    (h : resolveValidations f opt = none) :
    validateField f opt = .error JSError.typeError := by
  simp only [validateField, h]

/-- C2 witness: a field whose `data-validate` attribute is the empty string
(and an empty `explicitRules` argument) makes `validateField` throw. -/
theorem C2_unresolved_rule_list_throws_witness :
    validateField ⟨"y", some "", some "p"⟩ (some "") =
      .error JSError.typeError :=
  C2_unresolved_rule_list_throws ⟨"y", some "", some "p"⟩ (some "") (by decide)

/-- C3: the `creditCard` validator accepts the literal test-bypass value
4567456745674567 and rejects "1234". -/
theorem C3_creditCard_bypass_and_reject :
    (validator.creditCard (JSVal.str "4567456745674567")).error = false ∧
    (validator.creditCard (JSVal.str "1234")).error = true := by
  decide

/-- C4: when the field's value equals its placeholder text, the effective
value is the empty string, and `validateField` runs every rule of the
resolved list against that empty string. -/
theorem C4_placeholder_suppression (f : FormField) (opt : Option String)
    (h : f.placeholder = some f.value) :
    effectiveValue f = "" ∧
    ∀ vs : List String, resolveValidations f opt = some vs →
      validateField f opt = .ok (runValidations (JSVal.str "") vs) := by
  have he : effectiveValue f = "" := by simp [effectiveValue, h]
  refine ⟨he, ?_⟩
  intro vs hvs
  simp [validateField, hvs, he]

/-- C4 witness: a field whose value is exactly its placeholder is validated
as empty, so `required` fails on it. -/
theorem C4_placeholder_suppression_witness :
    validateField ⟨"Enter name", some "required", some "Enter name"⟩ none =
      .ok (false, some "Required") := by
  have h := (C4_placeholder_suppression
    ⟨"Enter name", some "required", some "Enter name"⟩ none rfl).2
    ["required"] (by decide)
  exact h

/-- C5: on a field set where every field resolves a rule list, `validate`
visits every field (a failing field does not stop the loop) and returns the
conjunction of the per-field results, so it returns `false` exactly when
some field fails. -/
theorem C5_validate_exhaustive_and (fields : List FormField)
    (h : ∀ f ∈ fields, (resolveValidations f none).isSome = true) :
    validate fields = .ok (fields.all fieldPassed) ∧
    (validate fields = .ok false ↔ ∃ f ∈ fields, fieldPassed f = false) := by
  have h1 : validate fields = .ok (fields.all fieldPassed) := by
    rw [validate, validateFields_ok_of_resolved fields true h]
    simp
  refine ⟨h1, ?_⟩
  rw [h1]
  have hiff := all_eq_false_iff_exists fieldPassed fields
  constructor
  · intro h2
    exact hiff.mp (by injection h2)
  · intro h2
    rw [hiff.mpr h2]

/-- C5 witness: a two-field set with one failing and one passing field
aggregates to `false` while both fields are visited. -/
theorem C5_validate_exhaustive_and_witness :
    validate [⟨"", some "required", none⟩, ⟨"abc", some "string", none⟩] =
      .ok false := by
  have h := (C5_validate_exhaustive_and
    [⟨"", some "required", none⟩, ⟨"abc", some "string", none⟩] (by decide)).1
  exact h

/-- C6: rule keys absent from the registry are silently skipped by the rule
loop, and a resolved rule list made only of unknown keys makes
`validateField` return `true` with nothing displayed. -/
theorem C6_unknown_rules_skipped :
    (∀ (value : JSVal) (r : String) (rest : List String),
       lookupValidator r = none →
       runValidations value (r :: rest) = runValidations value rest) ∧
    (∀ (f : FormField) (opt : Option String) (vs : List String),
       resolveValidations f opt = some vs →
       (∀ r ∈ vs, lookupValidator r = none) →
       validateField f opt = .ok (true, none)) := by
  refine ⟨fun value r rest h => runValidations_skip_unknown value r rest h, ?_⟩
  intro f opt vs hres hall
  simp [validateField, hres, runValidations_all_unknown_pass _ vs hall]

/-- C7: the `required` validator errs exactly on the empty string, `null`
and `undefined`, and accepts "0" and a single space. -/
theorem C7_required_empty_null_undefined :
    (∀ v : JSVal, ((validator.required v).error = true ↔
       (v = JSVal.str "" ∨ v = JSVal.null ∨ v = JSVal.undef))) ∧
    (validator.required (JSVal.str "0")).error = false ∧
    (validator.required (JSVal.str " ")).error = false := by
  refine ⟨?_, by decide, by decide⟩
  intro v
  cases v with
  | str s => simp [validator.required, looseEqStr, strictEqUndef, strictEqNull]
  | null => simp [validator.required, looseEqStr, strictEqUndef, strictEqNull]
  | undef => simp [validator.required, looseEqStr, strictEqUndef, strictEqNull]

/-- C8: the `positive` validator errs exactly when the numeric coercion of
the value is `NaN` or negative; it rejects "-1" and "abc" and accepts "0"
and "3.5". -/
theorem C8_positive_nan_or_negative :
    (∀ v : JSVal, (validator.positive v).error =
       ((jsToNumber v).isNaN || (jsToNumber v).ltZero)) ∧
    (validator.positive (JSVal.str "-1")).error = true ∧
    (validator.positive (JSVal.str "abc")).error = true ∧
    (validator.positive (JSVal.str "0")).error = false ∧
    (validator.positive (JSVal.str "3.5")).error = false := by
  refine ⟨?_, by decide, by decide, by decide, by decide⟩
  intro v
  by_cases h : ((jsToNumber v).isNaN || (jsToNumber v).ltZero) = true
  · simp [validator.positive, h]
  · simp only [Bool.not_eq_true] at h
    simp [validator.positive, h]

/-- C9: the `string` validator errs exactly when the value is falsy (with
message "Empty value") or holds a decimal digit; it rejects "abc1" and ""
and accepts "abc". -/
theorem C9_string_falsy_or_digit :
    (∀ v : JSVal, ((validator.string v).error = true ↔
       (jsFalsy v = true ∨ containsDigit (jsToString v) = true))) ∧
    validator.string (JSVal.str "") =
      { error := true, message := some "Empty value" } ∧
    (validator.string (JSVal.str "abc1")).error = true ∧
    (validator.string (JSVal.str "abc")).error = false := by
  refine ⟨?_, by decide, by decide, by decide⟩
  intro v
  by_cases h : jsFalsy v = true
  · simp [validator.string, h]
  · simp only [Bool.not_eq_true] at h
    simp [validator.string, h]

/-- C10: the `positive` validator accepts the empty string and every
whitespace-only string (their numeric coercion is 0), so a field whose
value equals its placeholder passes the `positive` rule. -/
theorem C10_positive_accepts_empty_and_placeholder :
    (validator.positive (JSVal.str "")).error = false ∧
    (∀ s : String, (∀ c ∈ s.data, jsWhitespaceChar c = true) →
       (validator.positive (JSVal.str s)).error = false) ∧
    (∀ f : FormField, f.placeholder = some f.value →
       validateField f (some "positive") = .ok (true, none)) := by
  refine ⟨by decide, ?_, ?_⟩
  · intro s h
    have h0 : jsToNumber (JSVal.str s) = .num (mkRat 0 1) := by
      simp [jsToNumber, stringToNumber_whitespace_only s h]
    simp [validator.positive, h0, JSNumber.isNaN, JSNumber.ltZero]
  · intro f h
    have he : effectiveValue f = "" := by simp [effectiveValue, h]
    have hres : resolveValidations f (some "positive") = some ["positive"] := rfl
    simp only [validateField, hres, he]
    rfl
